import Mathlib

/-!
Verification of the csr-pipes vector_add sample
(DirectProgramming/C++SYCL_FPGA/.../component_interfaces_comparison/csr-pipes/src/vector_add.cpp).

The program pushes `count` values into each of two read-streaming input
pipes (InputPipeA, InputPipeB), runs a single kernel invocation
(SimpleVAddKernel) that drains both pipes in lockstep, accumulates the
pairwise sums into a 32-bit accumulator, writes the total once to a
fire-and-forget output pipe (OutputPipeC), and then the host reads that
single value and compares it with an independently accumulated expected
sum.

Machine integers: the C++ `int` is 32 bits wide.  We model `int` values
by their two's-complement bit patterns, i.e. natural numbers below
2^32, and every addition wraps modulo 2^32.  Equality comparisons in the
program compare bit patterns, so this representation is faithful for all
the properties below.
-/

/-- Modulus of 32-bit machine integers, 2^32. -/
def INT_MOD : Nat := 4294967296

/-- Reduction of a value to its 32-bit bit pattern. -/
def wrap32 (x : Nat) : Nat := x % INT_MOD

/-- Wrapping 32-bit addition, the semantics of `+` on the program's `int`
values (two's-complement bit patterns). -/
def add32 (x y : Nat) : Nat := (x + y) % INT_MOD

/-- State of the kernel loop of `SimpleVAddKernel::operator()` when it
finishes: the accumulator `sum_total`, the number of reads performed on
InputPipeA and on InputPipeB, and the values still left in each pipe. -/
structure LoopState where
  sum_total : Nat
  readsA : Nat
  readsB : Nat
  restA : List Nat
  restB : List Nat
deriving DecidableEq

/-- The loop of `SimpleVAddKernel::operator()` (vector_add.cpp lines
39-47): for `len` iterations, read one value from InputPipeA, one from
InputPipeB, and add their (wrapping) sum into the accumulator.  A pipe is
the list of values written into it and not yet read; a read from an empty
read-streaming pipe blocks forever, modelled as `none`. -/
def vaddLoop : Nat → List Nat → List Nat → Nat → Nat → Nat → Option LoopState
  | 0, pa, pb, acc, ra, rb => some ⟨acc, ra, rb, pa, pb⟩
  | _ + 1, [], _, _, _, _ => none
  | _ + 1, _ :: _, [], _, _, _ => none
  | n + 1, a :: pa, b :: pb, acc, ra, rb =>
      vaddLoop n pa pb (add32 acc (add32 a b)) (ra + 1) (rb + 1)

/-- Outcome of one kernel invocation: the loop results together with the
list of values written to OutputPipeC, in order. -/
structure KernelOutcome where
  sum_total : Nat
  readsA : Nat
  readsB : Nat
  restA : List Nat
  restB : List Nat
  outWrites : List Nat
deriving DecidableEq

/-- One invocation of `SimpleVAddKernel::operator()` (vector_add.cpp lines
38-52): initialise the accumulator to 0, run the loop `len` times, then
write the accumulated total to OutputPipeC exactly once. -/
def SimpleVAddKernel.run (len : Nat) (pa pb : List Nat) : Option KernelOutcome :=
  match vaddLoop len pa pb 0 0 0 with
  | none => none
  | some s => some ⟨s.sum_total, s.readsA, s.readsB, s.restA, s.restB, [s.sum_total]⟩

/-- `kVectorSize` from vector_add.cpp line 55. -/
def kVectorSize : Nat := 256

/-- The values the host writes into InputPipeA (vector_add.cpp lines
86-96): `a[i] = i` for `i` in `[0, count)`. -/
def hostA (count : Nat) : List Nat := (List.range count).map (fun i => wrap32 i)

/-- The values the host writes into InputPipeB (vector_add.cpp lines
86-96): `b[i] = count - i` for `i` in `[0, count)`. -/
def hostB (count : Nat) : List Nat := (List.range count).map (fun i => wrap32 (count - i))

/-- The host's independently accumulated expected sum (vector_add.cpp
line 90): `expected_sum += (a[i] + b[i])` over `i` in `[0, count)`, in
32-bit wrapping arithmetic, starting from 0. -/
def expected_sum (count : Nat) : Nat :=
  (List.range count).foldl
    (fun acc i => add32 acc (add32 (wrap32 i) (wrap32 (count - i)))) 0

/-- `EXIT_SUCCESS`. -/
def EXIT_SUCCESS : Nat := 0

/-- `EXIT_FAILURE`. -/
def EXIT_FAILURE : Nat := 1

/-- The host's pass flag (vector_add.cpp lines 107-113): `passed` starts
true and is cleared when the value read from OutputPipeC differs from the
expected sum. -/
def mainPassed (calcVal expectedVal : Nat) : Bool :=
  if calcVal ≠ expectedVal then false else true

/-- The process exit code on the normal path (vector_add.cpp line 120):
`passed ? EXIT_SUCCESS : EXIT_FAILURE`. -/
def mainExitCode (calcVal expectedVal : Nat) : Nat :=
  if mainPassed calcVal expectedVal then EXIT_SUCCESS else EXIT_FAILURE

/-- Everything observable about one complete run of `main` on the normal
(fault-free) path: the value read from OutputPipeC, the expected sum, the
pass flag, the exit code, the full list of writes made to OutputPipeC,
and how many reads of OutputPipeC the host performs (the host reads it
exactly once, line 109). -/
structure MainRun where
  calcVal : Nat
  expectedVal : Nat
  passed : Bool
  exitCode : Nat
  pipeCWrites : List Nat
  pipeCReads : Nat
deriving DecidableEq

/-- The fault-free path of `main` (vector_add.cpp lines 81-120): fill
both input pipes with the host data for `kVectorSize` elements, run the
kernel once, read OutputPipeC once, compare with the expected sum, and
exit.  `none` would mean a blocked pipe read (which cannot happen here). -/
def mainRun : Option MainRun :=
  match SimpleVAddKernel.run kVectorSize (hostA kVectorSize) (hostB kVectorSize) with
  | none => none
  | some k =>
    match k.outWrites with
    | [] => none
    | c :: _ =>
      some ⟨c, expected_sum kVectorSize, mainPassed c (expected_sum kVectorSize),
            mainExitCode c (expected_sum kVectorSize), k.outWrites, 1⟩

/-- How a run of the process ends: a normal exit with a code, or abrupt
termination via `std::terminate` (with the diagnostic printed first). -/
inductive MainOutcome where
  | exit (code : Nat)
  | terminated (diagnosticPrinted : Bool)
deriving DecidableEq

/-- The try/catch structure of `main` (vector_add.cpp lines 58-132): the
whole body runs inside one `try`; every device/runtime fault is surfaced
as the single catchable type `sycl::exception`, whose handler prints a
diagnostic and calls `std::terminate` unconditionally.  `fault` records
whether such an exception was thrown during the body. -/
def mainWithFault (fault : Bool) (calcVal expectedVal : Nat) : MainOutcome :=
  if fault then MainOutcome.terminated true
  else MainOutcome.exit (mainExitCode calcVal expectedVal)

/-! ### Helper lemmas -/

/-- Wrapping addition is commutative. -/
theorem add32_comm (x y : Nat) : add32 x y = add32 y x := by
  simp [add32, Nat.add_comm]

/-- Folding wrapping additions of pairwise sums computes the plain sum of
the pairwise sums, reduced modulo 2^32. -/
theorem foldl_pairs_add32 (l : List (Nat × Nat)) : ∀ acc : Nat,
    l.foldl (fun a p => add32 a (add32 p.1 p.2)) (acc % INT_MOD)
      = (acc + (l.map (fun p => p.1 + p.2)).sum) % INT_MOD := by
  induction l with
  | nil => intro acc; simp
  | cons x l ih =>
    intro acc
    have h1 : add32 (acc % INT_MOD) (add32 x.1 x.2) = (acc + (x.1 + x.2)) % INT_MOD := by
      simp only [add32, Nat.add_mod_mod, Nat.mod_add_mod]
    simp only [List.foldl_cons, List.map_cons, List.sum_cons, h1]
    rw [ih (acc + (x.1 + x.2))]
    congr 1
    omega

/-- Folding wrapping additions of a constant summand adds `length * c`,
reduced modulo 2^32. -/
theorem foldl_const_add32 (c : Nat) (l : List Nat) : ∀ acc : Nat,
    l.foldl (fun a _ => add32 a c) (acc % INT_MOD) = (acc + l.length * c) % INT_MOD := by
  induction l with
  | nil => intro acc; simp
  | cons x l ih =>
    intro acc
    have h1 : add32 (acc % INT_MOD) c = (acc + c) % INT_MOD := by
      simp only [add32, Nat.mod_add_mod]
    simp only [List.foldl_cons, List.length_cons, h1]
    rw [ih (acc + c)]
    congr 1
    ring

/-- Characterisation of the kernel loop when both pipes hold at least `N`
values: it consumes exactly `N` values from each pipe, increments both
read counters by `N`, and folds the wrapping pairwise sums into the
accumulator. -/
theorem vaddLoop_eq : ∀ (N : Nat) (pa pb : List Nat) (acc ra rb : Nat),
    N ≤ pa.length → N ≤ pb.length →
    vaddLoop N pa pb acc ra rb =
      some ⟨(List.zip (pa.take N) (pb.take N)).foldl
              (fun a p => add32 a (add32 p.1 p.2)) acc,
            ra + N, rb + N, pa.drop N, pb.drop N⟩ := by
  intro N
  induction N with
  | zero => intro pa pb acc ra rb _ _; simp [vaddLoop]
  | succ n ih =>
    intro pa pb acc ra rb ha hb
    cases pa with
    | nil => simp at ha
    | cons a pa =>
      cases pb with
      | nil => simp at hb
      | cons b pb =>
        simp only [vaddLoop]
        rw [ih pa pb (add32 acc (add32 a b)) (ra + 1) (rb + 1)
              (by simpa using ha) (by simpa using hb)]
        simp only [List.take_succ_cons, List.drop_succ_cons, List.zip_cons_cons,
          List.foldl_cons, Option.some.injEq, LoopState.mk.injEq]
        refine ⟨trivial, by omega, by omega, trivial, trivial⟩

/-- Exchanging the two input pipes (and the two read counters) does not
change the accumulator the kernel loop ends with. -/
theorem vaddLoop_swap : ∀ (N : Nat) (pa pb : List Nat) (acc ra rb ra2 rb2 : Nat),
    (vaddLoop N pa pb acc ra rb).map LoopState.sum_total
      = (vaddLoop N pb pa acc ra2 rb2).map LoopState.sum_total := by
  intro N
  induction N with
  | zero => intro pa pb acc ra rb ra2 rb2; simp [vaddLoop]
  | succ n ih =>
    intro pa pb acc ra rb ra2 rb2
    cases pa with
    | nil =>
      cases pb with
      | nil => simp [vaddLoop]
      | cons b pb => simp [vaddLoop]
    | cons a pa =>
      cases pb with
      | nil => simp [vaddLoop]
      | cons b pb =>
        simp only [vaddLoop]
        rw [add32_comm a b]
        exact ih pa pb (add32 acc (add32 b a)) (ra + 1) (rb + 1) (ra2 + 1) (rb2 + 1)

/-- Closed form of the host's expected sum: for any representable
`count`, the 32-bit accumulation of `a[i] + b[i] = i + (count - i)` over
`count` iterations yields `count * count` modulo 2^32. -/
theorem expected_sum_eq (count : Nat) (hlt : count < INT_MOD) :
    expected_sum count = (count * count) % INT_MOD := by
  unfold expected_sum
  have hext : (List.range count).foldl
        (fun acc i => add32 acc (add32 (wrap32 i) (wrap32 (count - i)))) 0
      = (List.range count).foldl (fun acc _ => add32 acc count) 0 := by
    apply List.foldl_ext
    intro x i hi
    have hi' : i < count := List.mem_range.mp hi
    have h1 : wrap32 i = i := Nat.mod_eq_of_lt (lt_trans hi' hlt)
    have h2 : wrap32 (count - i) = count - i :=
      Nat.mod_eq_of_lt (lt_of_le_of_lt (Nat.sub_le _ _) hlt)
    rw [h1, h2]
    have h3 : add32 i (count - i) = count := by
      unfold add32
      rw [Nat.add_sub_cancel' (le_of_lt hi')]
      exact Nat.mod_eq_of_lt hlt
    rw [h3]
  rw [hext]
  have h := foldl_const_add32 count (List.range count) 0
  rw [Nat.zero_mod] at h
  rw [h, List.length_range, Nat.zero_add]

/-! ### Claim theorems -/

/-- Claim C1 (amended): for every representable `count > 0`, the
independently computed expected total for inputs `a[i] = i`,
`b[i] = count - i` equals `count * count` reduced modulo 2^32, and it
equals `count * count` exactly whenever that product fits in 32 bits; in
particular for `count = 256` it is 65536. -/
theorem expected_sum_spec (count : Nat) (hpos : 0 < count) (hlt : count < INT_MOD) :
    expected_sum count = (count * count) % INT_MOD ∧
      (count * count < INT_MOD → expected_sum count = count * count) := by
  refine ⟨expected_sum_eq count hlt, fun h => ?_⟩
  rw [expected_sum_eq count hlt, Nat.mod_eq_of_lt h]

/-- Witness for C1 at the program's concrete `count = 256`: the expected
total is 256 * 256 = 65536. -/
theorem expected_sum_spec_witness :
    0 < 256 ∧ 256 < INT_MOD ∧ expected_sum 256 = 256 * 256 :=
  ⟨by decide, by decide, (expected_sum_spec 256 (by decide) (by decide)).2 (by decide)⟩

/-- Counterexample to C1 as stated: at `count = 65536` the accumulation
wraps modulo 2^32, so the expected total the harness computes is 0,
not `65536 * 65536`. -/
theorem expected_sum_claim_fails_at_65536 :
    0 < 65536 ∧ expected_sum 65536 ≠ 65536 * 65536 := by
  refine ⟨by decide, ?_⟩
  rw [expected_sum_eq 65536 (by decide)]
  decide

/-- Claim C2: for every `N` with at least `N` values in each input pipe,
the kernel performs exactly `N` reads from each input pipe, accumulates
the wrapping pairwise sums starting from 0, and writes exactly the
resulting total, once, to the output pipe. -/
theorem kernel_contract (N : Nat) (pa pb : List Nat)
    (ha : N ≤ pa.length) (hb : N ≤ pb.length) :
    ∃ k : KernelOutcome, SimpleVAddKernel.run N pa pb = some k ∧
      k.readsA = N ∧ k.readsB = N ∧
      k.sum_total = (List.zip (pa.take N) (pb.take N)).foldl
        (fun a p => add32 a (add32 p.1 p.2)) 0 ∧
      k.outWrites = [k.sum_total] := by
  have h := vaddLoop_eq N pa pb 0 0 0 ha hb
  have hrun : SimpleVAddKernel.run N pa pb =
      some ⟨(List.zip (pa.take N) (pb.take N)).foldl (fun a p => add32 a (add32 p.1 p.2)) 0,
            0 + N, 0 + N, pa.drop N, pb.drop N,
            [(List.zip (pa.take N) (pb.take N)).foldl (fun a p => add32 a (add32 p.1 p.2)) 0]⟩ := by
    unfold SimpleVAddKernel.run
    rw [h]
  exact ⟨_, hrun, by simp, by simp, rfl, rfl⟩

/-- Witness for C2 at `N = 2`, pipes `[1, 2]` and `[3, 4]`. -/
theorem kernel_contract_witness :
    ∃ k : KernelOutcome, SimpleVAddKernel.run 2 [1, 2] [3, 4] = some k ∧
      k.readsA = 2 ∧ k.readsB = 2 ∧
      k.sum_total = (List.zip (([1, 2] : List Nat).take 2) (([3, 4] : List Nat).take 2)).foldl
        (fun a p => add32 a (add32 p.1 p.2)) 0 ∧
      k.outWrites = [k.sum_total] :=
  kernel_contract 2 [1, 2] [3, 4] (by decide) (by decide)

/-- Claim C3: the normal-path exit code is `0` exactly when the value
read from the output pipe equals the expected sum, and non-zero on any
mismatch. -/
theorem exit_code_iff (c e : Nat) :
    (mainExitCode c e = 0 ↔ c = e) ∧ (c ≠ e → mainExitCode c e ≠ 0) := by
  unfold mainExitCode mainPassed EXIT_SUCCESS EXIT_FAILURE
  by_cases h : c = e <;> simp [h]

/-- Witness for C3: exit code 0 at the matching pair (65536, 65536), and
a non-zero exit code at the mismatching pair (5, 7). -/
theorem exit_code_iff_witness :
    mainExitCode 65536 65536 = 0 ∧ mainExitCode 5 7 ≠ 0 :=
  ⟨(exit_code_iff 65536 65536).1.mpr rfl, (exit_code_iff 5 7).2 (by decide)⟩

/-- Claim C4: exchanging the two input pipes does not change the value
the kernel writes to the output pipe (nor whether it completes). -/
theorem kernel_swap_comm (N : Nat) (pa pb : List Nat) :
    (SimpleVAddKernel.run N pa pb).map KernelOutcome.outWrites
      = (SimpleVAddKernel.run N pb pa).map KernelOutcome.outWrites := by
  have h := vaddLoop_swap N pa pb 0 0 0 0 0
  unfold SimpleVAddKernel.run
  cases e1 : vaddLoop N pa pb 0 0 0 with
  | none =>
    cases e2 : vaddLoop N pb pa 0 0 0 with
    | none => simp
    | some s2 => rw [e1, e2] at h; simp at h
  | some s1 =>
    cases e2 : vaddLoop N pb pa 0 0 0 with
    | none => rw [e1, e2] at h; simp at h
    | some s2 =>
      rw [e1, e2] at h
      simp at h
      simp [h]

/-- Claim C5: with `count = 0` the kernel reads nothing from either input
pipe, ends with accumulator 0, and performs exactly one output write
carrying 0. -/
theorem kernel_count_zero (pa pb : List Nat) :
    SimpleVAddKernel.run 0 pa pb = some ⟨0, 0, 0, pa, pb, [0]⟩ := rfl

/-- Claim C6: in the complete (fault-free) run of the program, the output
pipe is written exactly once by the kernel and read exactly once by the
host. -/
theorem outputPipe_once :
    mainRun.map (fun m => (m.pipeCWrites.length, m.pipeCReads)) = some (1, 1) := by
  decide

/-- Claim C7: the host writes `kVectorSize = 256` values into each input
pipe, and the kernel invocation reads exactly that many values from each
input pipe. -/
theorem inputPipe_counts_match :
    (hostA kVectorSize).length = kVectorSize ∧
      (hostB kVectorSize).length = kVectorSize ∧
      (SimpleVAddKernel.run kVectorSize (hostA kVectorSize) (hostB kVectorSize)).map
        (fun k => (k.readsA, k.readsB)) = some (kVectorSize, kVectorSize) := by
  have hA : (hostA kVectorSize).length = kVectorSize := by simp [hostA]
  have hB : (hostB kVectorSize).length = kVectorSize := by simp [hostB]
  refine ⟨hA, hB, ?_⟩
  have h := vaddLoop_eq kVectorSize (hostA kVectorSize) (hostB kVectorSize) 0 0 0
    (le_of_eq hA.symm) (le_of_eq hB.symm)
  unfold SimpleVAddKernel.run
  rw [h]
  simp

/-- Claim C8: a device/runtime fault (the single catchable exception)
always ends in diagnostic-plus-abrupt-termination regardless of any
computed values, while without a fault the program always reaches a
normal exit, with code `EXIT_FAILURE` on a result mismatch. -/
theorem fault_handling (fault : Bool) (c e : Nat) :
    (fault = true → mainWithFault fault c e = MainOutcome.terminated true) ∧
      mainWithFault false c e = MainOutcome.exit (mainExitCode c e) ∧
      (c ≠ e → mainWithFault false c e = MainOutcome.exit EXIT_FAILURE) := by
  refine ⟨fun hf => by simp [mainWithFault, hf], by simp [mainWithFault], fun hne => ?_⟩
  simp [mainWithFault, mainExitCode, mainPassed, hne]

/-- Witness for C8 at the concrete values (3, 9): a fault terminates, no
fault plus mismatch exits normally with `EXIT_FAILURE`. -/
theorem fault_handling_witness :
    mainWithFault true 3 9 = MainOutcome.terminated true ∧
      mainWithFault false 3 9 = MainOutcome.exit EXIT_FAILURE :=
  ⟨(fault_handling true 3 9).1 rfl, (fault_handling true 3 9).2.2 (by decide)⟩

/-- Claim C9: the kernel is deterministic: two invocations with the same
count and the same input-pipe contents write the same values to the
output pipe. -/
theorem kernel_deterministic (N : Nat) (pa pb : List Nat) (k1 k2 : KernelOutcome)
    (h1 : SimpleVAddKernel.run N pa pb = some k1)
    (h2 : SimpleVAddKernel.run N pa pb = some k2) :
    k1.outWrites = k2.outWrites := by
  rw [h1] at h2
  cases h2
  rfl

/-- Witness for C9 at `N = 1`, pipes `[2]` and `[3]`. -/
theorem kernel_deterministic_witness :
    KernelOutcome.outWrites ⟨5, 1, 1, [], [], [5]⟩
      = KernelOutcome.outWrites ⟨5, 1, 1, [], [], [5]⟩ :=
  kernel_deterministic 1 [2] [3] ⟨5, 1, 1, [], [], [5]⟩ ⟨5, 1, 1, [], [], [5]⟩
    (by decide) (by decide)

/-- Claim C10: for every `N` and arbitrary input sequences of length `N`,
the kernel writes exactly the sum of the pairwise sums reduced modulo
2^32 to the output pipe. -/
theorem kernel_sum_mod (N : Nat) (a b : List Nat)
    (ha : a.length = N) (hb : b.length = N) :
    ∃ k : KernelOutcome, SimpleVAddKernel.run N a b = some k ∧
      k.outWrites = [((List.zip a b).map (fun p => p.1 + p.2)).sum % INT_MOD] := by
  have h := vaddLoop_eq N a b 0 0 0 (le_of_eq ha.symm) (le_of_eq hb.symm)
  have hta : a.take N = a := by rw [← ha]; exact List.take_length a
  have htb : b.take N = b := by rw [← hb]; exact List.take_length b
  rw [hta, htb] at h
  have hs : (List.zip a b).foldl (fun x p => add32 x (add32 p.1 p.2)) 0
      = ((List.zip a b).map (fun p => p.1 + p.2)).sum % INT_MOD := by
    have h0 := foldl_pairs_add32 (List.zip a b) 0
    rw [Nat.zero_mod] at h0
    rw [h0, Nat.zero_add]
  have hrun : SimpleVAddKernel.run N a b =
      some ⟨(List.zip a b).foldl (fun x p => add32 x (add32 p.1 p.2)) 0,
            0 + N, 0 + N, a.drop N, b.drop N,
            [(List.zip a b).foldl (fun x p => add32 x (add32 p.1 p.2)) 0]⟩ := by
    unfold SimpleVAddKernel.run
    rw [h]
  exact ⟨_, hrun, by rw [hs]⟩

/-- Witness for C10 at `N = 1`, inputs `[7]` and `[9]`. -/
theorem kernel_sum_mod_witness :
    ∃ k : KernelOutcome, SimpleVAddKernel.run 1 [7] [9] = some k ∧
      k.outWrites = [((List.zip ([7] : List Nat) ([9] : List Nat)).map
        (fun p => p.1 + p.2)).sum % INT_MOD] :=
  kernel_sum_mod 1 [7] [9] rfl rfl
